import Mathlib

/-!
Shallow embedding of the parade-weather probability synthesis pipeline
(backend/app/utils/indices.py, backend/app/utils/fuse.py,
backend/app/services/climatology.py and the classification /
explainability steps of backend/app/main.py), together with proofs of
the specification claims.

Conventions of the embedding:
- Python floats are modelled as rationals; the builtin round(x, n) is
  modelled as rounding x * 10^n to the nearest integer (half away from
  the lower side) and dividing back.
- Transcendental primitives (math.sin, math.cos, math.log, math.exp and
  the real power x ** 0.16) have no exact rational counterpart; the
  embedding takes them as explicit function parameters, so every
  definition stays executable and every theorem quantifies over the
  oracle where the claim does not depend on its analytic properties.
- A Python float division that can raise ZeroDivisionError is embedded
  as an Option value that is none exactly when a denominator is zero.
-/

namespace ParadeWeather

/-- Model of the Python builtin max on two rationals, written so that the
kernel can evaluate it. -/
def pymax (a b : ℚ) : ℚ := if a ≤ b then b else a

/-- Model of the Python builtin min on two rationals, written so that the
kernel can evaluate it. -/
def pymin (a b : ℚ) : ℚ := if b ≤ a then b else a

theorem pymax_eq_max (a b : ℚ) : pymax a b = max a b := by
  unfold pymax
  rw [max_def]

theorem pymin_eq_min (a b : ℚ) : pymin a b = min a b := by
  unfold pymin
  rcases le_total a b with h | h
  · rw [min_eq_left h]
    split
    · exact le_antisymm (by assumption) h
    · rfl
  · rw [min_eq_right h, if_pos h]

/-- Model of the Python builtin round(x, n): multiply by 10^n, round to the
nearest integer, divide back. -/
def roundTo (n : ℕ) (q : ℚ) : ℚ :=
  (round (q * (10 ^ n : ℚ)) : ℚ) / (10 ^ n : ℚ)

/-! ### Fusion engine, from backend/app/utils/fuse.py -/

/-- Blending weight of fuse_probabilities:
alpha = max(0.3, min(0.9, 1.0 - (lead_hours/240.0))). -/
def alphaOf (lead_hours : ℤ) : ℚ :=
  pymax 0.3 (pymin 0.9 (1.0 - ((lead_hours : ℚ) / 240.0)))

/-- Value fused for a single category by fuse_probabilities:
round(max(0.0, min(1.0, alpha*v + (1-alpha)*0.3*v + 0.05)), 2). -/
def fuseVal (lead_hours : ℤ) (v : ℚ) : ℚ :=
  roundTo 2 (pymax 0.0 (pymin 1.0
    (alphaOf lead_hours * v + (1 - alphaOf lead_hours) * 0.3 * v + 0.05)))

/-- fuse_probabilities(probs, lead_hours): applies fuseVal to every entry of
the probability map (a dict, embedded as an association list that keeps the
dict's insertion order). -/
def fuse_probabilities {K : Type} (probs : List (K × ℚ)) (lead_hours : ℤ) :
    List (K × ℚ) :=
  probs.map (fun kv => (kv.1, fuseVal lead_hours kv.2))

/-- combine_sources(sources, weights): weighted average of several
probability maps under weights normalized by their sum. A zero weight sum
raises ValueError (the InvalidWeight error of the spec), embedded as the
error branch of Except. Sources are association lists; a missing key
contributes 0.0 (dict.get default). The set of keys is the union of all
source key sets. -/
def getD (source : List (String × ℚ)) (k : String) : ℚ :=
  match source.find? (fun kv => kv.1 = k) with
  | some kv => kv.2
  | none => 0.0

/-- Union of the key sets of all sources, in first-occurrence order
(Python iterates a set; the spec claims are order-independent). -/
def keysUnion (sources : List (List (String × ℚ))) : List String :=
  (sources.foldl (fun acc s => acc ++ s.map Prod.fst) []).dedup

/-- Weighted sum for one key across zip(sources, normalized_weights). -/
def weightedSum (sources : List (List (String × ℚ))) (normalized : List ℚ)
    (k : String) : ℚ :=
  (sources.zip normalized).foldl (fun acc sw => acc + getD sw.1 k * sw.2) 0.0

def combine_sources (sources : List (List (String × ℚ))) (weights : List ℚ) :
    Except String (List (String × ℚ)) :=
  let total_weight := weights.sum
  if total_weight = 0 then
    Except.error "InvalidWeight"
  else
    let normalized_weights := weights.map (fun w => w / total_weight)
    Except.ok ((keysUnion sources).map
      (fun k => (k, roundTo 4 (weightedSum sources normalized_weights k))))

/-! ### Index calculator, from backend/app/utils/indices.py -/

/-- compute_heat_index(t_c, rh): Rothfusz regression in Fahrenheit,
converted back to Celsius. Pure rational arithmetic. -/
def compute_heat_index (t_c rh : ℚ) : ℚ :=
  let t_f := t_c * 9 / 5 + 32
  let hi_f := -42.379 + 2.04901523 * t_f + 10.14333127 * rh
    - 0.22475541 * t_f * rh - 6.83783e-3 * t_f * t_f
    - 5.481717e-2 * rh * rh + 1.22874e-3 * t_f * t_f * rh
    + 8.5282e-4 * t_f * rh * rh - 1.99e-6 * t_f * t_f * rh * rh
  (hi_f - 32) * 5 / 9

/-- compute_wind_chill(t_c, wind_ms): the real power v ** 0.16 is taken as
the oracle parameter pow016. -/
def compute_wind_chill (pow016 : ℚ → ℚ) (t_c wind_ms : ℚ) : ℚ :=
  let v_kmh := wind_ms * 3.6
  if v_kmh < 4.8 ∨ t_c > 10 then t_c
  else 13.12 + 0.6215 * t_c - 11.37 * pow016 v_kmh
    + 0.3965 * t_c * pow016 v_kmh

/-- Argument handed to math.log inside compute_dew_point:
max(rh, 1e-6) / 100.0. -/
def dewLogArg (rh : ℚ) : ℚ := pymax rh 1e-6 / 100.0

/-- compute_dew_point(t_c, rh): Magnus formula. math.log is the oracle
parameter logF. The two float divisions can raise ZeroDivisionError in
Python when their denominator is zero; those branches are none. -/
def compute_dew_point (logF : ℚ → ℚ) (t_c rh : ℚ) : Option ℚ :=
  let a : ℚ := 17.62
  let b : ℚ := 243.12
  if b + t_c = 0 then none
  else
    let gamma := a * t_c / (b + t_c) + logF (dewLogArg rh)
    if a - gamma = 0 then none
    else some (b * gamma / (a - gamma))

/-- compute_humidex(t_c, rh): dew point, then vapor pressure via math.exp
(oracle parameter expF). The division 1/(273.15 + Td) can raise
ZeroDivisionError in Python; that branch is none. -/
def compute_humidex (logF expF : ℚ → ℚ) (t_c rh : ℚ) : Option ℚ :=
  match compute_dew_point logF t_c rh with
  | none => none
  | some Td =>
    if (273.15 : ℚ) + Td = 0 then none
    else
      let e := 6.11 * expF (5417.7530 * (1 / 273.16 - 1 / (273.15 + Td)))
      some (t_c + 0.5555 * (e - 10))

/-! ### Climatology model, from backend/app/services/climatology.py

The seasonal signals are sin(theta) and cos(theta) with
theta = 2 * pi * ((doy - offset) / 365); since pi is irrational the
embedding passes the seasonal phase (doy - offset) / 365 to oracle
parameters sin2pi and cos2pi standing for x maps to sin(2 pi x) and
x maps to cos(2 pi x). The coastiness term uses math.sin(math.radians(lon)),
embedded as the oracle sinDeg standing for x maps to sin(x * pi / 180). -/

/-- Hemispheric phase offset: 200, shifted by half a year modulo 365 when
the latitude is negative. -/
def offsetOf (lat : ℚ) : ℤ :=
  if lat < 0 then (200 + 182) % 365 else 200

/-- Seasonal phase (doy - offset) / 365 fed to the seasonal sin/cos. -/
def seasonalPhase (lat : ℚ) (doy : ℤ) : ℚ :=
  ((doy : ℚ) - (offsetOf lat : ℚ)) / 365.0

/-- Mean annual temperature baseline mean_t = 18.0 - 0.12 * abs(lat). -/
def mean_t (lat : ℚ) : ℚ := 18.0 - 0.12 * |lat|

/-- Seasonal thermal amplitude amp_t = max(6.0, 12.0 - 0.08 * abs(lat)). -/
def amp_t (lat : ℚ) : ℚ := pymax 6.0 (12.0 - 0.08 * |lat|)

/-- Median temperature t50 = mean_t + amp_t * sin(theta). -/
def t50 (sin2pi : ℚ → ℚ) (lat : ℚ) (doy : ℤ) : ℚ :=
  mean_t lat + amp_t lat * sin2pi (seasonalPhase lat doy)

/-- Percentile band p10/p50/p90 of one variable family. -/
structure Band where
  p10 : ℚ
  p50 : ℚ
  p90 : ℚ

/-- The four percentile bands returned by get_percentiles. -/
structure Percentiles where
  HI : Band
  WC : Band
  WIND : Band
  PRCP : Band

/-- get_percentiles(lat, lon, doy): deterministic climatological percentile
surrogate; every output is rounded to 1 decimal. -/
def get_percentiles (sin2pi cos2pi sinDeg : ℚ → ℚ) (lat lon : ℚ) (doy : ℤ) :
    Percentiles :=
  let s := sin2pi (seasonalPhase lat doy)
  let c := cos2pi (seasonalPhase lat doy)
  let t50v := mean_t lat + amp_t lat * s
  let hi_p50 := t50v
  let hi_p90 := hi_p50 + 4.0
  let hi_p10 := hi_p50 - 4.0
  let wc_p50 := t50v - 2.0
  let wc_p10 := wc_p50 - 6.0
  let wc_p90 := wc_p50 + 6.0
  let mean_wind := 4.0 + 0.03 * |lat|
  let amp_wind := 1.0 + 0.01 * |lat|
  let wind_p50 := pymax 0.5 (mean_wind + 0.5 * c * amp_wind)
  let wind_p90 := wind_p50 + 3.0
  let wind_p10 := pymax 0.5 (wind_p50 - 2.0)
  let wet_season := pymax 0.0 s
  let coastiness := 0.3 + 0.2 * (0.5 + 0.5 * sinDeg lon)
  let prcp_p50 := 1.0 + 6.0 * wet_season * coastiness
  let prcp_p90 := prcp_p50 + 6.0 * (0.6 + 0.4 * wet_season)
  let prcp_p10 := pymax 0.0 (prcp_p50 - 1.5)
  { HI := ⟨roundTo 1 hi_p10, roundTo 1 hi_p50, roundTo 1 hi_p90⟩
    WC := ⟨roundTo 1 wc_p10, roundTo 1 wc_p50, roundTo 1 wc_p90⟩
    WIND := ⟨roundTo 1 wind_p10, roundTo 1 wind_p50, roundTo 1 wind_p90⟩
    PRCP := ⟨roundTo 1 prcp_p10, roundTo 1 prcp_p50, roundTo 1 prcp_p90⟩ }

/-! ### Risk classifier and explainability, from backend/app/main.py -/

/-- Risk categories, listed in the insertion order of the probs dict of
main.query, which is the canonical order of the spec. -/
inductive Cat where
  | very_hot
  | very_cold
  | very_windy
  | very_wet
  | very_uncomfortable
deriving DecidableEq

/-- Position of a category in the canonical order. -/
def catIdx : Cat → ℕ
  | .very_hot => 0
  | .very_cold => 1
  | .very_windy => 2
  | .very_wet => 3
  | .very_uncomfortable => 4

/-- The five raw probabilities of main.query step 4, keyed by category. -/
structure RawProbs where
  very_hot : ℚ
  very_cold : ℚ
  very_windy : ℚ
  very_wet : ℚ
  very_uncomfortable : ℚ

/-- Heuristic probability table of main.query step 4: Python bool cast to
float gives 1.0 for true and 0.0 for false. The inputs are the derived
indices hi, wc, dp, the raw wind, pop and precip values, and the
climatological percentiles. -/
def classify (hi wc dp wind pop precip : ℚ) (pct : Percentiles) : RawProbs where
  very_hot := if hi > pymax pct.HI.p90 32 then 1 else 0
  very_cold := if wc < pymin pct.WC.p10 5 then 1 else 0
  very_windy := if wind > pymax pct.WIND.p90 10.0 then 1 else 0
  very_wet := if pop ≥ 50 ∨ precip ≥ pymax pct.PRCP.p90 5 then 1 else 0
  very_uncomfortable := if dp ≥ 20.0 ∨ hi ≥ 32.0 ∨ wc ≤ 0.0 then 1 else 0

/-- Association list of the fused dict in its canonical insertion order. -/
def catList (p : RawProbs) : List (Cat × ℚ) :=
  [(.very_hot, p.very_hot), (.very_cold, p.very_cold),
   (.very_windy, p.very_windy), (.very_wet, p.very_wet),
   (.very_uncomfortable, p.very_uncomfortable)]

/-- Stable insertion step for descending order on the sort key: the new
element goes in front of the first element whose key is not larger, so
equal keys keep their original relative order, exactly as Python's stable
sorted(..., reverse=True). -/
def insertDesc (x : Cat × ℚ) : List (Cat × ℚ) → List (Cat × ℚ)
  | [] => [x]
  | y :: ys => if x.2 ≥ y.2 then x :: y :: ys else y :: insertDesc x ys

/-- Stable sort, descending on the probability, modelling Python's
sorted(keys, key, reverse=True) on the filtered category list. -/
def sortDesc : List (Cat × ℚ) → List (Cat × ℚ)
  | [] => []
  | x :: xs => insertDesc x (sortDesc xs)

/-- top_risks of main.query: categories with fused value above 0.3, stably
sorted descending by fused value, truncated to two. -/
def top_risks (fused : List (Cat × ℚ)) : List Cat :=
  ((sortDesc (fused.filter (fun kv => kv.2 > 0.3))).take 2).map Prod.fst

/-! ### Helper lemmas -/

theorem round_mono_rat {p q : ℚ} (h : p ≤ q) : round p ≤ round q := by
  rw [round_eq, round_eq]
  exact Int.floor_le_floor (by linarith)

theorem roundTo_mono (n : ℕ) {p q : ℚ} (h : p ≤ q) :
    roundTo n p ≤ roundTo n q := by
  unfold roundTo
  have h10 : (0 : ℚ) < 10 ^ n := by positivity
  have h2 : ((round (p * 10 ^ n) : ℤ) : ℚ) ≤ ((round (q * 10 ^ n) : ℤ) : ℚ) := by
    exact_mod_cast round_mono_rat (mul_le_mul_of_nonneg_right h h10.le)
  exact div_le_div_of_nonneg_right h2 h10.le

theorem alphaOf_bounds (L : ℤ) : 0.3 ≤ alphaOf L ∧ alphaOf L ≤ 0.9 := by
  unfold alphaOf
  rw [pymax_eq_max, pymin_eq_min]
  exact ⟨le_max_left _ _, max_le (by norm_num) (min_le_left _ _)⟩

theorem fuseVal_one (L : ℤ) :
    fuseVal L 1 = roundTo 2 (0.35 + 0.7 * alphaOf L) := by
  obtain ⟨hlo, hhi⟩ := alphaOf_bounds L
  unfold fuseVal
  rw [pymax_eq_max, pymin_eq_min]
  have h1 : alphaOf L * 1 + (1 - alphaOf L) * 0.3 * 1 + 0.05
      = 0.35 + 0.7 * alphaOf L := by ring
  rw [h1, min_eq_right (by linarith), max_eq_right (by linarith)]

theorem fuseVal_zero (L : ℤ) : fuseVal L 0 = 0.05 := by
  unfold fuseVal
  rw [pymax_eq_max, pymin_eq_min]
  have h1 : alphaOf L * 0 + (1 - alphaOf L) * 0.3 * 0 + 0.05 = 0.05 := by ring
  rw [h1, min_eq_right (by norm_num), max_eq_right (by norm_num)]
  norm_num [roundTo, round_eq, Int.floor_eq_iff]

theorem roundTo2_eval_one : roundTo 2 (1 : ℚ) = 1 := by
  norm_num [roundTo, round_eq, Int.floor_eq_iff]

theorem roundTo2_eval_floor : roundTo 2 (0.05 : ℚ) = 0.05 := by
  norm_num [roundTo, round_eq, Int.floor_eq_iff]

/-! ### Claim theorems -/

/-- C1, counterexample: with raw value 1.0 and lead_time_hours 72 the code
fuses to 0.84 = round(clamp(0.7 * 1 + 0.3 * 0.3 * 1 + 0.05, 0, 1), 2); the
worked example evaluation chain of the spec (0.84 + 0.09 + 0.05, written as
0.98 + 0.05) yields 0.98 or, after clamping its 1.03, the value 1.0, and the
code produces neither. -/
theorem fuse_worked_example_mismatch :
    fuseVal 72 1 = 0.84 ∧ fuseVal 72 1 ≠ 0.98 ∧ fuseVal 72 1 ≠ 1 := by
  have h : fuseVal 72 1 = 0.84 := by
    norm_num [fuseVal, alphaOf, pymin, pymax, roundTo, round_eq, Int.floor_eq_iff]
  refine ⟨h, by rw [h]; norm_num, by rw [h]; norm_num⟩

/-- C1, amended: fuse computes alpha = clamp(1 - lead_hours/240, 0.3, 0.9)
and maps each raw value v to round(clamp(alpha*v + (1-alpha)*0.3*v + 0.05,
0, 1), 2); for raw = 1.0 and lead_time_hours = 72, alpha = 0.7 and the fused
value is exactly 0.84, the correctly evaluated rounded result of the
formula. -/
theorem fuse_formula_and_example :
    (∀ (L : ℤ) (v : ℚ),
      alphaOf L = max 0.3 (min 0.9 (1 - (L : ℚ) / 240)) ∧
      fuseVal L v = roundTo 2 (max 0 (min 1
        (alphaOf L * v + (1 - alphaOf L) * 0.3 * v + 0.05)))) ∧
    (∀ (probs : List (String × ℚ)) (L : ℤ),
      fuse_probabilities probs L
        = probs.map (fun kv => (kv.1, fuseVal L kv.2))) ∧
    alphaOf 72 = 0.7 ∧ fuseVal 72 1 = 0.84 := by
  refine ⟨fun L v => ⟨?_, ?_⟩, fun probs L => rfl, ?_, ?_⟩
  · unfold alphaOf
    rw [pymax_eq_max, pymin_eq_min]
    norm_num
  · unfold fuseVal
    rw [pymax_eq_max, pymin_eq_min]
    norm_num
  · norm_num [alphaOf, pymin, pymax]
  · norm_num [fuseVal, alphaOf, pymin, pymax, roundTo, round_eq, Int.floor_eq_iff]

/-- C3: when every raw value of the input map is 0 or 1, every value of the
fused map lies in the interval from 0.05 to 1.0 — never exactly 0 — and a
raw value of 0.0 is fused to exactly 0.05. -/
theorem fused_values_range (K : Type) (probs : List (K × ℚ)) (L : ℤ)
    (h : ∀ kv ∈ probs, kv.2 = 0 ∨ kv.2 = 1) :
    (∀ fkv ∈ fuse_probabilities probs L, 0.05 ≤ fkv.2 ∧ fkv.2 ≤ 1) ∧
    fuseVal L 0 = 0.05 := by
  obtain ⟨hlo, hhi⟩ := alphaOf_bounds L
  refine ⟨?_, fuseVal_zero L⟩
  intro fkv hf
  rw [fuse_probabilities, List.mem_map] at hf
  obtain ⟨kv, hkv, rfl⟩ := hf
  rcases h kv hkv with h0 | h1
  · rw [h0, fuseVal_zero]
    norm_num
  · rw [h1, fuseVal_one]
    constructor
    · calc (0.05 : ℚ) = roundTo 2 0.05 := roundTo2_eval_floor.symm
        _ ≤ roundTo 2 (0.35 + 0.7 * alphaOf L) := roundTo_mono 2 (by linarith)
    · calc roundTo 2 (0.35 + 0.7 * alphaOf L) ≤ roundTo 2 1 :=
          roundTo_mono 2 (by linarith)
        _ = 1 := roundTo2_eval_one

/-- C3 witness: the map very_wet 0, very_hot 1 at lead 72 satisfies the
range invariant and the exact 0.05 floor. -/
theorem fused_values_range_witness :
    (∀ kv ∈ [("very_wet", (0 : ℚ)), ("very_hot", 1)], kv.2 = 0 ∨ kv.2 = 1) ∧
    ((∀ fkv ∈ fuse_probabilities [("very_wet", (0 : ℚ)), ("very_hot", 1)] 72,
        0.05 ≤ fkv.2 ∧ fkv.2 ≤ 1) ∧ fuseVal 72 0 = 0.05) :=
  ⟨by intro kv hkv; simp at hkv; rcases hkv with h | h <;> simp [h],
   fused_values_range String _ 72
     (by intro kv hkv; simp at hkv; rcases hkv with h | h <;> simp [h])⟩

/-- C9: for a fixed raw value of 1.0 the fused value is monotone in the
clamped blending weight alpha, rounding included. -/
theorem fuse_monotone_in_alpha (L1 L2 : ℤ) (h : alphaOf L2 ≤ alphaOf L1) :
    fuseVal L2 1 ≤ fuseVal L1 1 := by
  rw [fuseVal_one, fuseVal_one]
  exact roundTo_mono 2 (by linarith)

/-- C9 witness: lead 0 has alpha 0.9, lead 240 has alpha 0.3, and the fused
values respect the order. -/
theorem fuse_monotone_in_alpha_witness :
    alphaOf 240 ≤ alphaOf 0 ∧ fuseVal 240 1 ≤ fuseVal 0 1 :=
  ⟨by norm_num [alphaOf, pymin, pymax],
   fuse_monotone_in_alpha 0 240 (by norm_num [alphaOf, pymin, pymax])⟩

/-- C6: compute_wind_chill returns the temperature unchanged exactly when
the wind converted to km/h is below 4.8 or the temperature exceeds 10
degrees, and otherwise applies the exponentiated Canadian formula; the
real power v ** 0.16 is the oracle pow016, quantified over. -/
theorem wind_chill_regimes (pow016 : ℚ → ℚ) (t v : ℚ) :
    compute_wind_chill pow016 t v =
      if v * 3.6 < 4.8 ∨ t > 10 then t
      else 13.12 + 0.6215 * t - 11.37 * pow016 (v * 3.6)
        + 0.3965 * t * pow016 (v * 3.6) := rfl

/-- C7, counterexample: at temperature -243.12 and humidity 50 the Magnus
denominator b + t is zero, so the Python code raises ZeroDivisionError
instead of returning a value, although the humidity is positive. -/
theorem dew_point_denominator_failure :
    compute_dew_point (fun x => x) (-243.12) 50 = none ∧ (0 : ℚ) < 50 := by
  constructor
  · unfold compute_dew_point
    norm_num
  · norm_num

/-- C7, amended: whenever the Magnus denominators are nonzero (b + t and
a - gamma for dew point, 273.15 + Td for humidex) both functions return a
value, and the relative humidity is floored at 1e-6 before the logarithm,
so the logarithm argument is strictly positive for every humidity,
including humidity 0. -/
theorem dew_point_humidex_total (logF expF : ℚ → ℚ) (t rh : ℚ)
    (h1 : (243.12 : ℚ) + t ≠ 0)
    (h2 : (17.62 : ℚ) - (17.62 * t / (243.12 + t) + logF (dewLogArg rh)) ≠ 0)
    (h3 : ∀ Td : ℚ, compute_dew_point logF t rh = some Td →
      (273.15 : ℚ) + Td ≠ 0) :
    0 < dewLogArg rh ∧ (compute_dew_point logF t rh).isSome ∧
      (compute_humidex logF expF t rh).isSome := by
  have hpos : 0 < dewLogArg rh := by
    unfold dewLogArg
    rw [pymax_eq_max]
    have : (1e-6 : ℚ) ≤ max rh 1e-6 := le_max_right _ _
    have h100 : (0 : ℚ) < 100.0 := by norm_num
    apply div_pos (lt_of_lt_of_le (by norm_num) this) h100
  have hdew : compute_dew_point logF t rh
      = some (243.12 * (17.62 * t / (243.12 + t) + logF (dewLogArg rh)) /
          (17.62 - (17.62 * t / (243.12 + t) + logF (dewLogArg rh)))) := by
    unfold compute_dew_point
    rw [if_neg h1, if_neg h2]
  refine ⟨hpos, by rw [hdew]; rfl, ?_⟩
  unfold compute_humidex
  rw [hdew]
  dsimp only
  rw [if_neg (h3 _ hdew)]
  rfl

/-- C7 witness: at temperature 0 and humidity 50, with placeholder oracles,
all denominators are nonzero, the logarithm argument is positive and both
functions return a value. -/
theorem dew_point_humidex_total_witness :
    ((243.12 : ℚ) + 0 ≠ 0) ∧
    ((17.62 : ℚ) - (17.62 * 0 / (243.12 + 0) + (fun _ : ℚ => (0 : ℚ)) (dewLogArg 50)) ≠ 0) ∧
    (∀ Td : ℚ, compute_dew_point (fun _ => 0) 0 50 = some Td →
      (273.15 : ℚ) + Td ≠ 0) ∧
    (0 < dewLogArg 50 ∧ (compute_dew_point (fun _ => 0) 0 50).isSome ∧
      (compute_humidex (fun _ => 0) (fun _ => 0) 0 50).isSome) := by
  have h1 : (243.12 : ℚ) + 0 ≠ 0 := by norm_num
  have h2 : (17.62 : ℚ) - (17.62 * 0 / (243.12 + 0) +
      (fun _ : ℚ => (0 : ℚ)) (dewLogArg 50)) ≠ 0 := by norm_num
  have h3 : ∀ Td : ℚ, compute_dew_point (fun _ => 0) 0 50 = some Td →
      (273.15 : ℚ) + Td ≠ 0 := by
    intro Td hTd
    unfold compute_dew_point at hTd
    norm_num at hTd
    rw [← hTd]
    norm_num
  exact ⟨h1, h2, h3, dew_point_humidex_total (fun _ => 0) (fun _ => 0) 0 50 h1 h2 h3⟩

theorem ite_one_zero_cases (c : Prop) [Decidable c] :
    (if c then (1 : ℚ) else 0) = 1 ∨ (if c then (1 : ℚ) else 0) = 0 := by
  split
  · exact Or.inl rfl
  · exact Or.inr rfl

theorem ite_one_zero_iff (c : Prop) [Decidable c] :
    (if c then (1 : ℚ) else 0) = 1 ↔ c := by
  by_cases h : c <;> simp [h]

/-- C2: the classifier produces five probabilities, each exactly 0.0 or
1.0, and each equals 1.0 exactly under the fixed policy table conditions
comparing the derived indices and raw values against the climatological
percentile or the absolute fallback threshold. -/
theorem classifier_policy_table (hi wc dp wind pop precip : ℚ)
    (pct : Percentiles) :
    ((classify hi wc dp wind pop precip pct).very_hot = 1 ∨
      (classify hi wc dp wind pop precip pct).very_hot = 0) ∧
    ((classify hi wc dp wind pop precip pct).very_hot = 1 ↔
      hi > max pct.HI.p90 32) ∧
    ((classify hi wc dp wind pop precip pct).very_cold = 1 ∨
      (classify hi wc dp wind pop precip pct).very_cold = 0) ∧
    ((classify hi wc dp wind pop precip pct).very_cold = 1 ↔
      wc < min pct.WC.p10 5) ∧
    ((classify hi wc dp wind pop precip pct).very_windy = 1 ∨
      (classify hi wc dp wind pop precip pct).very_windy = 0) ∧
    ((classify hi wc dp wind pop precip pct).very_windy = 1 ↔
      wind > max pct.WIND.p90 10) ∧
    ((classify hi wc dp wind pop precip pct).very_wet = 1 ∨
      (classify hi wc dp wind pop precip pct).very_wet = 0) ∧
    ((classify hi wc dp wind pop precip pct).very_wet = 1 ↔
      (pop ≥ 50 ∨ precip ≥ max pct.PRCP.p90 5)) ∧
    ((classify hi wc dp wind pop precip pct).very_uncomfortable = 1 ∨
      (classify hi wc dp wind pop precip pct).very_uncomfortable = 0) ∧
    ((classify hi wc dp wind pop precip pct).very_uncomfortable = 1 ↔
      (dp ≥ 20 ∨ hi ≥ 32 ∨ wc ≤ 0)) := by
  simp only [classify, pymax_eq_max, pymin_eq_min]
  refine ⟨ite_one_zero_cases _, ?_, ite_one_zero_cases _, ?_,
    ite_one_zero_cases _, ?_, ite_one_zero_cases _, ?_,
    ite_one_zero_cases _, ?_⟩ <;>
    rw [ite_one_zero_iff] <;> norm_num

/-- C5: the hemispheric phase offset is 200 for nonnegative latitude and
(200 + 182) mod 365 = 17 for negative latitude; the temperature baseline
is 18.0 - 0.12 * abs(lat) with amplitude max(6.0, 12.0 - 0.08 * abs(lat))
and median t50 = mean + amplitude * sin(theta); at latitude -34.9 the
offset is 17 and the baseline is 13.812, which rounds to 13.8. -/
theorem climatology_seasonal_parameters :
    (∀ lat : ℚ, offsetOf lat = if lat < 0 then 17 else 200) ∧
    (∀ lat : ℚ, mean_t lat = 18 - 0.12 * |lat|) ∧
    (∀ lat : ℚ, amp_t lat = max 6 (12 - 0.08 * |lat|)) ∧
    (∀ (sin2pi : ℚ → ℚ) (lat : ℚ) (doy : ℤ),
      t50 sin2pi lat doy
        = mean_t lat + amp_t lat * sin2pi (seasonalPhase lat doy)) ∧
    (∀ (sin2pi cos2pi sinDeg : ℚ → ℚ) (lat lon : ℚ) (doy : ℤ),
      (get_percentiles sin2pi cos2pi sinDeg lat lon doy).HI.p50
        = roundTo 1 (t50 sin2pi lat doy)) ∧
    offsetOf (-34.9) = 17 ∧ mean_t (-34.9) = 13.812 ∧
    roundTo 1 (mean_t (-34.9)) = 13.8 := by
  have habs : |(-34.9 : ℚ)| = 34.9 := by
    rw [abs_of_neg (by norm_num : (-34.9 : ℚ) < 0)]
    norm_num
  have hmean : mean_t (-34.9) = 13.812 := by
    unfold mean_t
    rw [habs]
    norm_num
  refine ⟨?_, fun lat => by norm_num [mean_t], ?_, fun _ _ _ => rfl, ?_, ?_,
    hmean, ?_⟩
  · intro lat
    unfold offsetOf
    split
    · norm_num
    · rfl
  · intro lat
    unfold amp_t
    rw [pymax_eq_max]
    norm_num
  · intro sin2pi cos2pi sinDeg lat lon doy
    rfl
  · unfold offsetOf
    rw [if_pos (by norm_num : (-34.9 : ℚ) < 0)]
    norm_num
  · rw [hmean]
    norm_num [roundTo, round_eq, Int.floor_eq_iff]

theorem roundTo1_eval_half : roundTo 1 (0.5 : ℚ) = 0.5 := by
  norm_num [roundTo, round_eq, Int.floor_eq_iff]

theorem roundTo1_eval_zero : roundTo 1 (0 : ℚ) = 0 := by
  norm_num [roundTo, round_eq, Int.floor_eq_iff]

/-- Ordering property claimed for the four percentile bands: each band has
p10 at most p50 at most p90 after the rounding to one decimal, the WIND p10
and p50 are at least 0.5 and the PRCP p10 is nonnegative. -/
def bandsOrdered (P : Percentiles) : Prop :=
  (P.HI.p10 ≤ P.HI.p50 ∧ P.HI.p50 ≤ P.HI.p90) ∧
  (P.WC.p10 ≤ P.WC.p50 ∧ P.WC.p50 ≤ P.WC.p90) ∧
  (P.WIND.p10 ≤ P.WIND.p50 ∧ P.WIND.p50 ≤ P.WIND.p90 ∧
    0.5 ≤ P.WIND.p10 ∧ 0.5 ≤ P.WIND.p50) ∧
  (P.PRCP.p10 ≤ P.PRCP.p50 ∧ P.PRCP.p50 ≤ P.PRCP.p90 ∧ 0 ≤ P.PRCP.p10)

/-- C10: every percentile band produced by get_percentiles is ordered
p10 at most p50 at most p90 after the rounding to one decimal, the WIND
p10 and p50 stay at least 0.5 and the PRCP p10 stays nonnegative; the only
analytic fact needed is that the sine oracle used for coastiness is
bounded below by -1. -/
theorem percentile_bands_ordered (sin2pi cos2pi sinDeg : ℚ → ℚ)
    (lat lon : ℚ) (doy : ℤ) (hb : -1 ≤ sinDeg lon) :
    bandsOrdered (get_percentiles sin2pi cos2pi sinDeg lat lon doy) := by
  simp only [bandsOrdered, get_percentiles, pymax_eq_max]
  set s := sin2pi (seasonalPhase lat doy) with hsdef
  set c := cos2pi (seasonalPhase lat doy) with hcdef
  set X := sinDeg lon with hXdef
  set T := mean_t lat + amp_t lat * s with hTdef
  set W := max (0.5 : ℚ) (4.0 + 0.03 * |lat| + 0.5 * c * (1.0 + 0.01 * |lat|))
    with hWdef
  set wet := max (0.0 : ℚ) s with hwetdef
  have hW05 : (0.5 : ℚ) ≤ W := le_max_left _ _
  have hwet0 : (0 : ℚ) ≤ wet := le_trans (by norm_num) (le_max_left 0.0 s)
  have hcoast : (0 : ℚ) ≤ 0.3 + 0.2 * (0.5 + 0.5 * X) := by linarith
  have hprod : (0 : ℚ) ≤ 6.0 * wet * (0.3 + 0.2 * (0.5 + 0.5 * X)) :=
    mul_nonneg (mul_nonneg (by norm_num) hwet0) hcoast
  refine ⟨⟨?_, ?_⟩, ⟨?_, ?_⟩, ⟨?_, ?_, ?_, ?_⟩, ⟨?_, ?_, ?_⟩⟩
  · exact roundTo_mono 1 (by linarith)
  · exact roundTo_mono 1 (by linarith)
  · exact roundTo_mono 1 (by linarith)
  · exact roundTo_mono 1 (by linarith)
  · exact roundTo_mono 1 (max_le (by linarith) (by linarith))
  · exact roundTo_mono 1 (by linarith)
  · calc (0.5 : ℚ) = roundTo 1 0.5 := roundTo1_eval_half.symm
      _ ≤ _ := roundTo_mono 1 (le_max_left _ _)
  · calc (0.5 : ℚ) = roundTo 1 0.5 := roundTo1_eval_half.symm
      _ ≤ _ := roundTo_mono 1 (le_max_left _ _)
  · exact roundTo_mono 1 (max_le (by linarith) (by linarith))
  · exact roundTo_mono 1 (by linarith)
  · calc (0 : ℚ) = roundTo 1 0 := roundTo1_eval_zero.symm
      _ ≤ _ := roundTo_mono 1 (le_trans (by norm_num) (le_max_left 0.0 _))

/-- C10 witness: with null sine and cosine oracles at the equator the
bands of get_percentiles are ordered. -/
theorem percentile_bands_ordered_witness :
    (-1 : ℚ) ≤ (fun _ : ℚ => (0 : ℚ)) 0 ∧
    bandsOrdered (get_percentiles (fun _ => 0) (fun _ => 0) (fun _ => 0)
      0 0 1) :=
  ⟨by norm_num,
   percentile_bands_ordered (fun _ => 0) (fun _ => 0) (fun _ => 0) 0 0 1
     (by norm_num)⟩

/-- C4, counterexample: with sources a maps-to 1 plus an empty source and
weights 1 and 2, the weight sum 3 is nonzero, the exact weighted average at
key a is 1/3, but combine_sources returns 3333/10000, its 4-decimal
rounding, so the returned value is not the weighted average itself. -/
theorem combine_sources_rounding_mismatch :
    combine_sources [[("a", 1)], []] [1, 2] = Except.ok [("a", 3333/10000)] ∧
    (3333/10000 : ℚ) ≠ 1 * (1 / (1 + 2)) + 0 * (2 / (1 + 2)) ∧
    ((1 : ℚ) + 2 + 0) ≠ 0 := by
  refine ⟨?_, by norm_num, by norm_num⟩
  simp [combine_sources, keysUnion, weightedSum, getD, List.find?]
  norm_num [roundTo, round_eq, Int.floor_eq_iff]

/-- C4, amended: combine_sources fails with the InvalidWeight error exactly
when the weight sum is zero, in particular on two empty lists; for every
nonzero weight sum it returns, for each key occurring in any source, the
weighted average under normalized weights rounded to 4 decimals, a key
missing from a source contributing 0.0 for that source. -/
theorem combine_sources_error_iff (sources : List (List (String × ℚ)))
    (weights : List ℚ) :
    (combine_sources sources weights = Except.error "InvalidWeight" ↔
      weights.sum = 0) ∧
    combine_sources [] [] = Except.error "InvalidWeight" ∧
    (∀ src : List (String × ℚ), ∀ k : String, src.find? (fun kv => kv.1 = k) = none →
      getD src k = 0) ∧
    (weights.sum ≠ 0 →
      combine_sources sources weights = Except.ok ((keysUnion sources).map
        (fun k => (k, roundTo 4
          (weightedSum sources (weights.map (fun w => w / weights.sum)) k))))) := by
  refine ⟨?_, rfl, ?_, ?_⟩
  · unfold combine_sources
    by_cases h : weights.sum = 0
    · simp [h]
    · simp [h]
  · intro src k hfind
    simp [getD, hfind]
    norm_num
  · intro h
    unfold combine_sources
    rw [if_neg h]

/-- C4 witness: with weights 1 and 1 over two singleton sources the sum is
nonzero and combine_sources returns the rounded normalized weighted
averages over the union of the keys. -/
theorem combine_sources_error_iff_witness :
    (([1, 1] : List ℚ).sum ≠ 0) ∧
    combine_sources [[("a", 1)], [("b", 1)]] [1, 1] =
      Except.ok ((keysUnion [[("a", 1)], [("b", 1)]]).map
        (fun k => (k, roundTo 4 (weightedSum [[("a", 1)], [("b", 1)]]
          (([1, 1] : List ℚ).map (fun w => w / ([1, 1] : List ℚ).sum)) k)))) :=
  ⟨by norm_num,
   (combine_sources_error_iff [[("a", 1)], [("b", 1)]] [1, 1]).2.2.2
     (by norm_num)⟩

/-! ### Spec-side ordering for top_risks (claim C8)

The spec describes the order of top_risks as descending fused probability
with ties broken by the canonical position of the category. The following
insertion sort implements that total order directly; the claim is settled
by proving it equal to the code-side stable sort on the canonical-order
category list. -/

/-- Insertion step for the spec-side order: strictly larger probability
first, equal probabilities ordered by canonical position. -/
def insertLex (x : Cat × ℚ) : List (Cat × ℚ) → List (Cat × ℚ)
  | [] => [x]
  | y :: ys =>
    if x.2 > y.2 ∨ (x.2 = y.2 ∧ catIdx x.1 < catIdx y.1) then x :: y :: ys
    else y :: insertLex x ys

/-- Insertion sort for the spec-side order. -/
def sortLex : List (Cat × ℚ) → List (Cat × ℚ)
  | [] => []
  | x :: xs => insertLex x (sortLex xs)

/-- Spec-side definition of top_risks, following the words of the spec:
categories with fused probability above 0.3, sorted descending by
probability with ties broken by canonical position, truncated to two. -/
def spec_top_risks (fused : List (Cat × ℚ)) : List Cat :=
  ((sortLex (fused.filter (fun kv => kv.2 > 0.3))).take 2).map Prod.fst

theorem mem_insertLex {z x : Cat × ℚ} {l : List (Cat × ℚ)}
    (h : z ∈ insertLex x l) : z = x ∨ z ∈ l := by
  induction l with
  | nil => simpa [insertLex] using h
  | cons y ys ih =>
    rw [insertLex] at h
    split at h
    · rcases List.mem_cons.mp h with h1 | h2
      · exact Or.inl h1
      · exact Or.inr h2
    · rcases List.mem_cons.mp h with h1 | h2
      · exact Or.inr (List.mem_cons.mpr (Or.inl h1))
      · rcases ih h2 with h3 | h4
        · exact Or.inl h3
        · exact Or.inr (List.mem_cons.mpr (Or.inr h4))

theorem mem_sortLex {z : Cat × ℚ} {l : List (Cat × ℚ)}
    (h : z ∈ sortLex l) : z ∈ l := by
  induction l with
  | nil => simp [sortLex] at h
  | cons x xs ih =>
    rw [sortLex] at h
    rcases mem_insertLex h with h1 | h2
    · simp [h1]
    · exact List.mem_cons.mpr (Or.inr (ih h2))

theorem insertDesc_eq_insertLex (x : Cat × ℚ) (l : List (Cat × ℚ))
    (h : ∀ y ∈ l, catIdx x.1 < catIdx y.1) :
    insertDesc x l = insertLex x l := by
  induction l with
  | nil => rfl
  | cons y ys ih =>
    have hy := h y (List.mem_cons_self y ys)
    rw [insertDesc, insertLex]
    by_cases hxy : x.2 ≥ y.2
    · rcases lt_or_eq_of_le hxy with hgt | heq
      · rw [if_pos hxy, if_pos (Or.inl hgt)]
      · rw [if_pos hxy, if_pos (Or.inr ⟨heq.symm, hy⟩)]
    · have hlt : x.2 < y.2 := lt_of_not_ge hxy
      rw [if_neg hxy, if_neg (by push_neg; exact ⟨hlt.le, fun he => absurd he hlt.ne⟩),
        ih (fun z hz => h z (List.mem_cons.mpr (Or.inr hz)))]

theorem sortDesc_eq_sortLex (l : List (Cat × ℚ))
    (h : l.Pairwise (fun a b => catIdx a.1 < catIdx b.1)) :
    sortDesc l = sortLex l := by
  induction l with
  | nil => rfl
  | cons x xs ih =>
    rw [List.pairwise_cons] at h
    rw [sortDesc, sortLex, ih h.2,
      insertDesc_eq_insertLex x _ (fun y hy => h.1 y (mem_sortLex hy))]

theorem catList_filter_pairwise (p : RawProbs) :
    ((catList p).filter (fun kv => decide (kv.2 > 0.3))).Pairwise
      (fun a b => catIdx a.1 < catIdx b.1) := by
  apply List.Pairwise.sublist (List.filter_sublist _)
  simp [catList, List.pairwise_cons, catIdx]

/-- C8: for every fused probability map over the five categories, in
canonical order, top_risks equals the spec-side description — the
categories with fused probability above 0.3 sorted descending with ties
broken by canonical position, truncated to two — and never has more than
two entries. -/
theorem top_risks_matches_spec (p : RawProbs) :
    top_risks (catList p) = spec_top_risks (catList p) ∧
    (top_risks (catList p)).length ≤ 2 := by
  constructor
  · unfold top_risks spec_top_risks
    rw [sortDesc_eq_sortLex _ (catList_filter_pairwise p)]
  · unfold top_risks
    rw [List.length_map, List.length_take]
    exact min_le_left _ _

end ParadeWeather
